import Mathlib

/-!
Shallow embedding of the BookInventoryApp persistent data layer
(src/unnamed/part_000, the `db` module) and of its Excel restore pipeline
(src/lib/restore-service.ts), together with theorems settling the frozen
claims about them.

Modelling conventions:
* The asynchronous storage layer is read-modify-write at collection
  granularity and single-threaded, so the whole Store is modelled as a pure
  record `Store` (four collections plus the four module-level next-id
  counters) and every `db` operation as a function `Store → ... → Store`.
* JS numbers that hold integral quantities (ids, stock, targetStock, qty,
  deltas) are modelled as `Int`; monetary amounts as `ℚ`.
* Timestamps are opaque strings; operations that call `new Date()` take the
  current timestamp as an explicit `now : String` argument.
* `Array.prototype.sort` with a consistent comparator is stable
  (ES2019); with a total preorder the stable sorted permutation is unique,
  so it is modelled by the stable insertion sort `sortJs` on the
  comparator's `≤ 0` relation.
* `localeCompare` on names is modelled as code-point lexicographic
  comparison (`charListCmp`), faithful for the ASCII names the claims use.
* Date parsing (`new Date(str)` validity) is host-defined; it is abstracted
  as an oracle `validDate : String → Bool` passed to the restore pipeline;
  the source's `isValidDate` additionally rejects the empty string, which is
  kept explicit in `isValidDateStr`.
-/

/-! ### Generic list helpers (JS semantics) -/

/-- `startsWithList sub l` : `l` begins with `sub` (char-by-char). -/
def startsWithList (sub l : List Char) : Bool :=
  match sub, l with
  | [], _ => true
  | _ :: _, [] => false
  | a :: as, b :: bs => a == b && startsWithList as bs

/-- `containsList sub l` : `sub` occurs contiguously inside `l`
(JS `String.prototype.includes` on the underlying char lists). -/
def containsList (sub l : List Char) : Bool :=
  match l with
  | [] => startsWithList sub []
  | _ :: bs => startsWithList sub l || containsList sub bs

/-- JS `s.includes(sub)`. -/
def strIncludes (s sub : String) : Bool :=
  containsList sub.data s.data

/-- JS `s.toLowerCase()`, modelled per character (faithful for the ASCII
data the claims exercise). -/
def strToLower (s : String) : String :=
  ⟨s.data.map Char.toLower⟩

/-- JS `s.trim()` (space characters; the data the validators see uses
ordinary spaces). -/
def strTrim (s : String) : String :=
  ⟨((s.data.dropWhile (· == ' ')).reverse.dropWhile (· == ' ')).reverse⟩

/-- JS `Array.prototype.find`: first element satisfying `p`. -/
def findFirst (p : α → Bool) : List α → Option α
  | [] => none
  | x :: xs => if p x then some x else findFirst p xs

/-- Replace the first element satisfying `p` by its image under `f`
(the in-place mutation at `findIndex` in the source). -/
def updateFirst (p : α → Bool) (f : α → α) : List α → List α
  | [] => []
  | x :: xs => if p x then f x :: xs else x :: updateFirst p f xs

/-- `Math.max(...l)` for a non-empty list (the `[]` case is never reached:
every call site guards on non-emptiness). -/
def listMax : List Int → Int
  | [] => 0
  | x :: xs => xs.foldl max x

/-- Code-point lexicographic comparison of char lists, returning the sign
(-1, 0, 1) that `localeCompare` feeds to the sort. -/
def charListCmp : List Char → List Char → Int
  | [], [] => 0
  | [], _ :: _ => -1
  | _ :: _, [] => 1
  | a :: as, b :: bs =>
    if a < b then -1 else if b < a then 1 else charListCmp as bs

/-- `a.localeCompare(b)` modelled up to sign. -/
def strCmpInt (a b : String) : Int :=
  charListCmp a.data b.data

/-- Insert `x` after every already-placed element `y` with `le y x`
(so equal elements keep their original relative order). -/
def insertCmp (le : α → α → Bool) (x : α) : List α → List α
  | [] => [x]
  | y :: ys => if le y x then y :: insertCmp le x ys else x :: y :: ys

/-- `Array.prototype.sort(cmp)` for a consistent comparator: stable and
sorted by `le`.  A stable sort with a total preorder has a unique output,
so this insertion sort agrees with the engine's merge sort. -/
def sortJs (le : α → α → Bool) (l : List α) : List α :=
  l.foldl (fun acc x => insertCmp le x acc) []

/-! ### Data model (src/unnamed/part_000 interfaces) -/

structure Book where
  id : Int
  name : String
  author : String
  stock : Int
  targetStock : Int
  costPrice : ℚ
  sellPrice : ℚ
  isbn : String
  lastStockedAt : Option String := none
deriving Repr, DecidableEq

structure Restock where
  id : Int
  bookId : Int
  bookName : String
  qtyAdded : Int
  date : String
deriving Repr, DecidableEq

structure Sale where
  id : Int
  bookId : Int
  bookName : String
  qty : Int
  totalAmount : ℚ
  profit : ℚ
  date : String
deriving Repr, DecidableEq

structure Expense where
  id : Int
  type : String
  amount : ℚ
  description : String
  date : String
deriving Repr, DecidableEq

structure DashboardStats where
  totalStock : Int
  stockValue : ℚ
  totalSales : ℚ
  grossProfit : ℚ
  totalExpenses : ℚ
  netProfit : ℚ
  totalBooks : Nat
  lowStockCount : Nat
  profitMargin : ℚ
  totalTransactions : Nat
deriving Repr, DecidableEq

/-- The persistent state: the four stored collections plus the module-level
mutable next-id counters (`nextBookId` etc. in the source). -/
structure Store where
  books : List Book
  sales : List Sale
  expenses : List Expense
  restocks : List Restock
  nextBookId : Int
  nextSaleId : Int
  nextExpenseId : Int
  nextRestockId : Int
deriving Repr, DecidableEq

/-- The snapshot shape handled by `getRawData` / `restoreData`.  The
`restocks` field is `Option` because `restoreFromExcel`'s write phase
passes an object without that field; `restoreData` reads it as
`data.restocks || []`. -/
structure RawData where
  books : List Book
  sales : List Sale
  expenses : List Expense
  restocks : Option (List Restock)
deriving Repr, DecidableEq

/-- Input to `db.addBook` (`Omit<Book, 'id' | 'lastStockedAt'>`). -/
structure NewBook where
  name : String
  author : String
  stock : Int
  targetStock : Int
  costPrice : ℚ
  sellPrice : ℚ
  isbn : String
deriving Repr, DecidableEq

/-! ### Store operations (the `db` object of src/unnamed/part_000) -/

namespace db

/-- Comparator of `db.getAllBooks`: low-stock flag computed against
`a.targetStock || 3` (the `|| 3` fires when `targetStock` is falsy,
i.e. `0`), then `localeCompare` on names. -/
def cmpAllBooks (a b : Book) : Int :=
  let aLow : Int := if a.stock ≤ (if a.targetStock = 0 then 3 else a.targetStock) then 0 else 1
  let bLow : Int := if b.stock ≤ (if b.targetStock = 0 then 3 else b.targetStock) then 0 else 1
  if aLow ≠ bLow then aLow - bLow else strCmpInt a.name b.name

/-- Comparator of `db.searchBooks`: low-stock flag against the hardcoded
threshold `3`, then `localeCompare` on names. -/
def cmpSearch (a b : Book) : Int :=
  let aLow : Int := if a.stock ≤ 3 then 0 else 1
  let bLow : Int := if b.stock ≤ 3 then 0 else 1
  if aLow ≠ bLow then aLow - bLow else strCmpInt a.name b.name

def getAllBooks (s : Store) : List Book :=
  sortJs (fun a b => cmpAllBooks a b ≤ 0) s.books

/-- Filter predicate of `db.searchBooks` (query already lowercased). -/
def searchMatch (ql : String) (b : Book) : Bool :=
  strIncludes (strToLower b.name) ql || strIncludes (strToLower b.author) ql

def searchBooks (s : Store) (query : String) : List Book :=
  let q := strToLower query
  sortJs (fun a b => cmpSearch a b ≤ 0) (s.books.filter (searchMatch q))

def recordRestock (s : Store) (bookId : Int) (bookName : String)
    (qtyAdded : Int) (date : String) : Store :=
  { s with
    restocks := s.restocks ++
      [{ id := s.nextRestockId, bookId := bookId, bookName := bookName,
         qtyAdded := qtyAdded, date := date }],
    nextRestockId := s.nextRestockId + 1 }

def addBook (s : Store) (d : NewBook) (now : String) : Store :=
  let newBook : Book :=
    { id := s.nextBookId, name := d.name, author := d.author,
      stock := d.stock, targetStock := d.targetStock,
      costPrice := d.costPrice, sellPrice := d.sellPrice, isbn := d.isbn,
      lastStockedAt := some now }
  let s1 := { s with books := s.books ++ [newBook], nextBookId := s.nextBookId + 1 }
  recordRestock s1 newBook.id newBook.name newBook.stock now

def updateBook (s : Store) (book : Book) : Store :=
  match findFirst (fun b => b.id == book.id) s.books with
  | none => s
  | some _ => { s with books := updateFirst (fun b => b.id == book.id) (fun _ => book) s.books }

def deleteBook (s : Store) (id : Int) : Store :=
  { s with books := s.books.filter (fun b => b.id != id) }

def updateStock (s : Store) (id : Int) (delta : Int) (now : String) : Store :=
  match findFirst (fun b => b.id == id) s.books with
  | none => s
  | some b =>
    let books' := updateFirst (fun x => x.id == id)
      (fun x => { x with
        stock := max 0 (x.stock + delta),
        lastStockedAt := if delta > 0 then some now else x.lastStockedAt }) s.books
    let s1 := { s with books := books' }
    if delta > 0 then recordRestock s1 id b.name delta now else s1

def recordSale (s : Store) (bookId : Int) (qty : Int) (totalAmount : ℚ)
    (costPrice : ℚ) (bookName : String) (now : String) : Store :=
  let profit := totalAmount - (qty : ℚ) * costPrice
  let sale : Sale :=
    { id := s.nextSaleId, bookId := bookId, bookName := bookName, qty := qty,
      totalAmount := totalAmount, profit := profit, date := now }
  let s1 := { s with sales := s.sales ++ [sale], nextSaleId := s.nextSaleId + 1 }
  updateStock s1 bookId (-qty) now

/-- The low-stock predicate `b.stock <= (b.targetStock || 3) || b.stock === 0`
shared verbatim by `getLowStockBooks` and `getDashboardStats`. -/
def lowStockPred (b : Book) : Bool :=
  b.stock ≤ (if b.targetStock = 0 then 3 else b.targetStock) || b.stock == 0

def getLowStockBooks (s : Store) : List Book :=
  s.books.filter lowStockPred

def getDashboardStats (s : Store) : DashboardStats :=
  let totalStock : Int := s.books.foldl (fun acc b => acc + b.stock) 0
  let stockValue : ℚ := s.books.foldl (fun acc b => acc + (b.stock : ℚ) * b.costPrice) 0
  let totalSales : ℚ := s.sales.foldl (fun acc t => acc + t.totalAmount) 0
  let grossProfit : ℚ := s.sales.foldl (fun acc t => acc + t.profit) 0
  let totalExpenses : ℚ := s.expenses.foldl (fun acc e => acc + e.amount) 0
  let netProfit := grossProfit - totalExpenses
  let lowStockCount := (s.books.filter lowStockPred).length
  let profitMargin := if totalSales > 0 then netProfit / totalSales * 100 else 0
  { totalStock := totalStock, stockValue := stockValue, totalSales := totalSales,
    grossProfit := grossProfit, totalExpenses := totalExpenses,
    netProfit := netProfit, totalBooks := s.books.length,
    lowStockCount := lowStockCount, profitMargin := profitMargin,
    totalTransactions := s.sales.length }

def getRawData (s : Store) : RawData :=
  { books := s.books, sales := s.sales, expenses := s.expenses,
    restocks := some s.restocks }

/-- `loadIds`: recompute each next-id counter as `max(existing ids) + 1`
when the collection is non-empty; leave it unchanged when empty. -/
def loadIds (s : Store) : Store :=
  { s with
    nextBookId := if s.books.isEmpty then s.nextBookId
      else listMax (s.books.map Book.id) + 1,
    nextSaleId := if s.sales.isEmpty then s.nextSaleId
      else listMax (s.sales.map Sale.id) + 1,
    nextExpenseId := if s.expenses.isEmpty then s.nextExpenseId
      else listMax (s.expenses.map Expense.id) + 1,
    nextRestockId := if s.restocks.isEmpty then s.nextRestockId
      else listMax (s.restocks.map Restock.id) + 1 }

def clearAllData (_ : Store) : Store :=
  { books := [], sales := [], expenses := [], restocks := [],
    nextBookId := 1, nextSaleId := 1, nextExpenseId := 1, nextRestockId := 1 }

def restoreData (s : Store) (data : RawData) : Store :=
  loadIds
    { s with
      books := data.books, sales := data.sales, expenses := data.expenses,
      restocks := data.restocks.getD [] }

end db

/-! ### Restore pipeline (src/lib/restore-service.ts) -/

/-- A spreadsheet cell as surfaced by `sheet_to_json` with `defval: ''`:
either a string or a number.  A column absent from a row behaves, through
every access the validators perform (`parseInt`, `Number`, `String(x || '')`,
`isValidNumber`), like the empty string, so it is modelled as `.str ""`. -/
inductive Cell where
  | str (s : String)
  | num (q : ℚ)
deriving Repr, DecidableEq

/-- Value of a digit run. -/
def digitsToNat (ds : List Char) : Nat :=
  ds.foldl (fun a c => a * 10 + (c.toNat - '0'.toNat)) 0

/-- JS `parseInt` on the standard decimal shapes the app handles:
skip spaces, optional sign, then the longest leading digit run; `none`
models `NaN`.  On a number, `parseInt` truncates toward zero.  (Radix
prefixes and scientific notation are outside the data this app reads.) -/
def parseIntJS : Cell → Option Int
  | .num q => some (q.num.tdiv (q.den : Int))
  | .str t =>
    let l := t.data.dropWhile (fun c => c == ' ')
    let sign : Int := match l with
      | '-' :: _ => -1
      | _ => 1
    let l' := match l with
      | '-' :: r => r
      | '+' :: r => r
      | _ => l
    let ds := l'.takeWhile Char.isDigit
    if ds.isEmpty then none else some (sign * (digitsToNat ds : Int))

/-- Digit run to a `ℚ` fractional part: `digits "25"` ↦ `0.25`. -/
def fracOfDigits (ds : List Char) : ℚ :=
  (digitsToNat ds : ℚ) / ((10 : ℚ) ^ ds.length)

/-- JS `Number(v)` on the decimal shapes the app handles; `none` models
`NaN`.  A whitespace-only string converts to `0`; a full decimal literal
(optional sign, integer part, optional fraction, at least one digit)
converts to its value; anything else is `NaN`. -/
def numberJS : Cell → Option ℚ
  | .num q => some q
  | .str t =>
    let l := t.data.dropWhile (fun c => c == ' ')
    let l := (l.reverse.dropWhile (fun c => c == ' ')).reverse
    if l.isEmpty then some 0
    else
      let sign : ℚ := match l with
        | '-' :: _ => -1
        | _ => 1
      let l' := match l with
        | '-' :: r => r
        | '+' :: r => r
        | _ => l
      let intDigits := l'.takeWhile Char.isDigit
      let rest := l'.dropWhile Char.isDigit
      match rest with
      | [] => if intDigits.isEmpty then none
              else some (sign * (digitsToNat intDigits : ℚ))
      | '.' :: fracPart =>
        if fracPart.all Char.isDigit ∧ ¬(intDigits.isEmpty ∧ fracPart.isEmpty) then
          some (sign * ((digitsToNat intDigits : ℚ) + fracOfDigits fracPart))
        else none
      | _ => none

/-- `isValidNumber`: `null`/`undefined`/`''` (all modelled `.str ""`) are
invalid; otherwise valid iff `Number(val)` is not `NaN`. -/
def isValidNumber (c : Cell) : Bool :=
  match c with
  | .str "" => false
  | c => (numberJS c).isSome

/-- JS `String(c || '')`: a falsy cell (empty string or the number 0) gives
`''`.  Numeric cells in string positions never occur in the claims; their
rendering uses `Rat`'s `toString` as a placeholder. -/
def cellOrEmpty : Cell → String
  | .str t => t
  | .num q => if q = 0 then "" else toString q

/-- JS `String(c || d).` for a default string `d` (used for `type`). -/
def cellOrDefault (c : Cell) (d : String) : String :=
  match c with
  | .str "" => d
  | .str t => t
  | .num q => if q = 0 then d else toString q

/-- `isValidDate(str)` with the host's `new Date` parser abstracted as the
oracle `validDate`; the source rejects the empty string up front. -/
def isValidDateStr (validDate : String → Bool) (str : String) : Bool :=
  str ≠ "" && validDate str

structure BookRow where
  id : Cell := .str ""
  name : Cell := .str ""
  author : Cell := .str ""
  isbn : Cell := .str ""
  costPrice : Cell := .str ""
  sellPrice : Cell := .str ""
  stock : Cell := .str ""
  targetStock : Cell := .str ""
deriving Repr, DecidableEq

structure SaleRow where
  id : Cell := .str ""
  bookId : Cell := .str ""
  bookName : Cell := .str ""
  qty : Cell := .str ""
  totalAmount : Cell := .str ""
  profit : Cell := .str ""
  date : Cell := .str ""
deriving Repr, DecidableEq

structure ExpenseRow where
  id : Cell := .str ""
  type : Cell := .str ""
  amount : Cell := .str ""
  description : Cell := .str ""
  date : Cell := .str ""
deriving Repr, DecidableEq

/-- `validateBookRow`: returns the accepted `Book` (or `none`) together with
the error messages pushed onto the shared `errors` array. -/
def validateBookRow (row : BookRow) (index : Nat) : Option Book × List String :=
  match parseIntJS row.id with
  | none => (none, ["Books row " ++ toString (index + 1) ++ ": Invalid id"])
  | some id =>
    if id ≤ 0 then (none, ["Books row " ++ toString (index + 1) ++ ": Invalid id"])
    else
      let name := strTrim (cellOrEmpty row.name)
      if name = "" then (none, ["Books row " ++ toString (index + 1) ++ ": Missing name"])
      else
        let costPrice := (numberJS row.costPrice).getD 0
        let sellPrice := (numberJS row.sellPrice).getD 0
        let stock := max 0 ((parseIntJS row.stock).getD 0)
        let targetStock0 := (parseIntJS row.targetStock).getD 0
        let targetStock := if targetStock0 = 0 then 5 else targetStock0
        (some
          { id := id, name := name,
            author := strTrim (cellOrEmpty row.author),
            isbn := strTrim (cellOrEmpty row.isbn),
            costPrice := max 0 costPrice, sellPrice := max 0 sellPrice,
            stock := stock, targetStock := max 1 targetStock,
            lastStockedAt := none }, [])

/-- `validateSaleRow` (date validity via the `validDate` oracle). -/
def validateSaleRow (validDate : String → Bool) (row : SaleRow) (index : Nat) :
    Option Sale × List String :=
  match parseIntJS row.id with
  | none => (none, ["Sales row " ++ toString (index + 1) ++ ": Invalid id"])
  | some id =>
    if id ≤ 0 then (none, ["Sales row " ++ toString (index + 1) ++ ": Invalid id"])
    else
      let date := cellOrEmpty row.date
      if ¬ isValidDateStr validDate date then
        (none, ["Sales row " ++ toString (index + 1) ++ ": Invalid date \"" ++ date ++ "\""])
      else
        (some
          { id := id,
            bookId := (parseIntJS row.bookId).getD 0,
            bookName := strTrim (cellOrEmpty row.bookName),
            qty := max 0 ((parseIntJS row.qty).getD 0),
            totalAmount := max 0 ((numberJS row.totalAmount).getD 0),
            profit := (numberJS row.profit).getD 0,
            date := date }, [])

/-- `validateExpenseRow`. -/
def validateExpenseRow (validDate : String → Bool) (row : ExpenseRow) (index : Nat) :
    Option Expense × List String :=
  match parseIntJS row.id with
  | none => (none, ["Expenses row " ++ toString (index + 1) ++ ": Invalid id"])
  | some id =>
    if id ≤ 0 then (none, ["Expenses row " ++ toString (index + 1) ++ ": Invalid id"])
    else
      let amount := (numberJS row.amount).getD 0
      if ¬ isValidNumber row.amount ∨ amount < 0 then
        (none, ["Expenses row " ++ toString (index + 1) ++ ": Invalid amount"])
      else
        let date := cellOrEmpty row.date
        if ¬ isValidDateStr validDate date then
          (none, ["Expenses row " ++ toString (index + 1) ++ ": Invalid date \"" ++ date ++ "\""])
        else
          (some
            { id := id, type := strTrim (cellOrDefault row.type "Misc"),
              amount := amount,
              description := strTrim (cellOrEmpty row.description),
              date := date }, [])

/-- The `forEach` loop over a sheet: validate each row (collecting error
messages), keep valid rows whose id was not seen before (first occurrence
wins, duplicates silently dropped). -/
def collectValidAux (validate : ρ → Nat → Option ε × List String) (getId : ε → Int) :
    List ρ → Nat → List Int → List ε × List String
  | [], _, _ => ([], [])
  | r :: rs, i, seen =>
    let (v, errs) := validate r i
    match v with
    | none =>
      let (es, msgs) := collectValidAux validate getId rs (i + 1) seen
      (es, errs ++ msgs)
    | some e =>
      if seen.contains (getId e) then
        let (es, msgs) := collectValidAux validate getId rs (i + 1) seen
        (es, errs ++ msgs)
      else
        let (es, msgs) := collectValidAux validate getId rs (i + 1) (getId e :: seen)
        (e :: es, errs ++ msgs)

def collectValid (validate : ρ → Nat → Option ε × List String) (getId : ε → Int)
    (rows : List ρ) : List ε × List String :=
  collectValidAux validate getId rows 0 []

/-- A parsed workbook.  Sheets are located by case-insensitive name match;
a present sheet is its parsed row list, an absent one is `none` (and
`parseSheetData` of an absent sheet is `[]`). -/
structure Workbook where
  booksSheet : Option (List BookRow)
  salesSheet : Option (List SaleRow)
  expensesSheet : Option (List ExpenseRow)

structure RestoreResult where
  success : Bool
  imported : Option (Nat × Nat × Nat)
  errors : List String
  message : String
deriving Repr, DecidableEq

/-- Outcome of the clear-and-write phase (the `try` around `clearAllData`
and `restoreData`): `ok`, or a raised error leaving the Store in an
arbitrary intermediate state.  The rollback write itself is modelled as
succeeding (its own failure is swallowed by the inner empty `catch`). -/
inductive WriteOutcome where
  | ok
  | fail (intermediate : Store) (errMsg : String)

def wbValidBooks (wb : Workbook) : List Book × List String :=
  collectValid validateBookRow Book.id (wb.booksSheet.getD [])

def wbValidSales (validDate : String → Bool) (wb : Workbook) : List Sale × List String :=
  collectValid (validateSaleRow validDate) Sale.id (wb.salesSheet.getD [])

def wbValidExpenses (validDate : String → Bool) (wb : Workbook) : List Expense × List String :=
  collectValid (validateExpenseRow validDate) Expense.id (wb.expensesSheet.getD [])

/-- `restoreFromExcel`, from the workbook-structure check onward (file read
and XLSX parse failures return before any of the modelled logic runs). -/
def restoreFromExcel (validDate : String → Bool) (wb : Workbook) (s : Store)
    (w : WriteOutcome) : RestoreResult × Store :=
  let hasBooks := wb.booksSheet.isSome
  let hasSales := wb.salesSheet.isSome
  if ¬ hasBooks ∧ ¬ hasSales then
    ({ success := false, imported := none,
       errors := ["Required sheets \x22Books\x22 or \x22Sales\x22 not found in workbook"],
       message := "Invalid backup file structure" }, s)
  else
    let validBooks := (wbValidBooks wb).1
    let bookErrs := (wbValidBooks wb).2
    let validSales := (wbValidSales validDate wb).1
    let saleErrs := (wbValidSales validDate wb).2
    let validExpenses := (wbValidExpenses validDate wb).1
    let expErrs := (wbValidExpenses validDate wb).2
    let errors := bookErrs ++ saleErrs ++ expErrs
    if validBooks.isEmpty ∧ validSales.isEmpty ∧ validExpenses.isEmpty then
      ({ success := false, imported := none,
         errors := errors ++ ["No valid data found to restore"],
         message := "Restore file contains no valid data" }, s)
    else
      let currentData := db.getRawData s
      match w with
      | .ok =>
        let s1 := db.clearAllData s
        let s2 := db.restoreData s1
          { books := validBooks, sales := validSales,
            expenses := validExpenses, restocks := none }
        ({ success := true,
           imported := some (validBooks.length, validSales.length, validExpenses.length),
           errors := errors,
           message := "Restored " ++ toString validBooks.length ++ " books, " ++
             toString validSales.length ++ " sales, " ++
             toString validExpenses.length ++ " expenses" }, s2)
      | .fail inter emsg =>
        let s2 := db.restoreData inter currentData
        ({ success := false, imported := none,
           errors := errors ++ ["Restore failed: " ++ emsg],
           message := "Restore failed, previous data has been kept" }, s2)

/-! ### Derived definitions, operation syntax, and concrete sample data
used by the theorems below -/

/-- The shared shape of the two book comparators: an integer flag, then
name comparison. -/
def cmpGen (g : α → Int) (n : α → List Char) (a b : α) : Int :=
  if g a ≠ g b then g a - g b else charListCmp (n a) (n b)

/-- The book mutation performed inside `updateStock`. -/
def stockAdjust (delta : Int) (now : String) (x : Book) : Book :=
  { x with stock := max 0 (x.stock + delta),
           lastStockedAt := if delta > 0 then some now else x.lastStockedAt }

def sampleBook : Book :=
  { id := 1, name := "A", author := "Auth", stock := 10, targetStock := 3,
    costPrice := 5, sellPrice := 10, isbn := "i" }

def sampleStore : Store :=
  { books := [sampleBook], sales := [], expenses := [], restocks := [],
    nextBookId := 2, nextSaleId := 1, nextExpenseId := 1, nextRestockId := 1 }

def sampleSale : Sale :=
  { id := 1, bookId := 1, bookName := "A", qty := 2, totalAmount := 20,
    profit := 10, date := "T" }

def sampleExpense : Expense :=
  { id := 1, type := "Rent", amount := 3, description := "", date := "T" }

def statsStore : Store :=
  { books := [sampleBook], sales := [sampleSale], expenses := [sampleExpense],
    restocks := [], nextBookId := 2, nextSaleId := 2, nextExpenseId := 2,
    nextRestockId := 1 }

def zeroTargetBook : Book :=
  { id := 9, name := "Z", author := "", stock := 2, targetStock := 0,
    costPrice := 1, sellPrice := 1, isbn := "" }

def zeroTargetStore : Store :=
  { books := [zeroTargetBook], sales := [], expenses := [], restocks := [],
    nextBookId := 10, nextSaleId := 1, nextExpenseId := 1, nextRestockId := 1 }

def boundaryBookA : Book :=
  { id := 1, name := "A", author := "", stock := 0, targetStock := 5,
    costPrice := 1, sellPrice := 1, isbn := "" }

def boundaryBookB : Book :=
  { id := 2, name := "B", author := "", stock := 5, targetStock := 5,
    costPrice := 1, sellPrice := 1, isbn := "" }

def boundaryBookC : Book :=
  { id := 3, name := "C", author := "", stock := 6, targetStock := 5,
    costPrice := 1, sellPrice := 1, isbn := "" }

def boundaryStore : Store :=
  { books := [boundaryBookA, boundaryBookB, boundaryBookC], sales := [],
    expenses := [], restocks := [], nextBookId := 4, nextSaleId := 1,
    nextExpenseId := 1, nextRestockId := 1 }

def emptyStore : Store :=
  { books := [], sales := [], expenses := [], restocks := [],
    nextBookId := 1, nextSaleId := 1, nextExpenseId := 1, nextRestockId := 1 }

def nbA : NewBook :=
  { name := "A", author := "", stock := 4, targetStock := 2,
    costPrice := 1, sellPrice := 2, isbn := "" }

def nbB : NewBook :=
  { name := "B", author := "", stock := 4, targetStock := 2,
    costPrice := 1, sellPrice := 2, isbn := "" }

/-- A store reached from empty by adding two books and deleting the second:
its `nextBookId` is 3 while its maximum book id is 1. -/
def reachedStore : Store :=
  db.deleteBook (db.addBook (db.addBook emptyStore nbA "T1") nbB "T2") 2

/-- The Store mutations named by the claim. -/
inductive StoreOp where
  | addBook (d : NewBook) (now : String)
  | updateBook (b : Book)
  | deleteBook (id : Int)
  | updateStock (id delta : Int) (now : String)
  | recordSale (bookId qty : Int) (totalAmount costPrice : ℚ) (bookName now : String)
  | restoreData (d : RawData)
  | clearAllData

def applyOp (s : Store) : StoreOp → Store
  | .addBook d now => db.addBook s d now
  | .updateBook b => db.updateBook s b
  | .deleteBook id => db.deleteBook s id
  | .updateStock id delta now => db.updateStock s id delta now
  | .recordSale bookId qty t c n now => db.recordSale s bookId qty t c n now
  | .restoreData d => db.restoreData s d
  | .clearAllData => db.clearAllData s

/-- The books an operation injects verbatim into the Store all carry
non-negative stock (`addBook`/`updateBook`/`restoreData` write their
argument's stock unclamped; the other operations take no book input). -/
def opStockOk : StoreOp → Bool
  | .addBook d _ => 0 ≤ d.stock
  | .updateBook b => 0 ≤ b.stock
  | .restoreData d => d.books.all (fun b => 0 ≤ b.stock)
  | _ => true

/-- The invariant of the claim: every book's stock is non-negative. -/
def StockInv (s : Store) : Prop := ∀ b ∈ s.books, 0 ≤ b.stock

instance (s : Store) : Decidable (StockInv s) :=
  inferInstanceAs (Decidable (∀ b ∈ s.books, 0 ≤ b.stock))

def negStockBook : Book :=
  { id := 1, name := "A", author := "", stock := -1, targetStock := 3,
    costPrice := 1, sellPrice := 1, isbn := "" }

def searchBookX : Book :=
  { id := 1, name := "z", author := "", stock := 5, targetStock := 10,
    costPrice := 1, sellPrice := 1, isbn := "" }

def searchBookY : Book :=
  { id := 2, name := "a", author := "", stock := 5, targetStock := 1,
    costPrice := 1, sellPrice := 1, isbn := "" }

def searchStore : Store :=
  { books := [searchBookX, searchBookY], sales := [], expenses := [],
    restocks := [], nextBookId := 3, nextSaleId := 1, nextExpenseId := 1,
    nextRestockId := 1 }

def wbGood : Workbook :=
  { booksSheet := some [{ id := .str "1", name := .str "Book A" }],
    salesSheet := none, expensesSheet := none }

def rollStore : Store :=
  { books := [sampleBook], sales := [sampleSale], expenses := [sampleExpense],
    restocks := [{ id := 1, bookId := 1, bookName := "A", qtyAdded := 5,
                   date := "T0" }],
    nextBookId := 2, nextSaleId := 2, nextExpenseId := 2, nextRestockId := 2 }

/-- A cell whose id fails the validators' check: `parseInt` gives `NaN`, or
a value `≤ 0`. -/
def idCellInvalid (c : Cell) : Bool :=
  match parseIntJS c with
  | none => true
  | some k => k ≤ 0

def badSaleRow : SaleRow := { id := .str "abc", date := .str "not-a-date" }

def badBookRow : BookRow := { id := .str "abc" }

def goodBookRow : BookRow := { id := .str "1", name := .str "Book A" }

def badAmountExpenseRow : ExpenseRow :=
  { id := .str "3", amount := .num (-5), date := .str "2024-01-05" }

def badDateSaleRow : SaleRow := { id := .str "2", date := .str "nope" }

def wbMixed : Workbook :=
  { booksSheet := some [badBookRow, goodBookRow], salesSheet := none,
    expensesSheet := none }

/-! ### Helper lemmas -/

theorem foldl_add_eq_sum {α M : Type _} [AddCommMonoid M] (f : α → M) :
    ∀ (l : List α) (init : M),
      l.foldl (fun acc x => acc + f x) init = init + (l.map f).sum
  | [], init => by simp
  | x :: xs, init => by
    simp only [List.foldl_cons, List.map_cons, List.sum_cons,
      foldl_add_eq_sum f xs (init + f x)]
    rw [add_assoc]

theorem findFirst_some {p : α → Bool} :
    ∀ {l : List α} {b : α}, findFirst p l = some b → p b = true
  | x :: xs, b, h => by
    by_cases hx : p x = true
    · simp only [findFirst, if_pos hx, Option.some.injEq] at h
      exact h ▸ hx
    · simp only [findFirst, if_neg hx] at h
      exact findFirst_some h

theorem updateFirst_get?_of_neg {p : α → Bool} {f : α → α} :
    ∀ {l : List α} {j : Nat} {c : α}, l.get? j = some c → p c = false →
      (updateFirst p f l).get? j = some c
  | x :: xs, j, c, hget, hc => by
    by_cases hx : p x = true
    · simp only [updateFirst, if_pos hx]
      cases j with
      | zero =>
        simp only [List.get?] at hget
        cases hget
        rw [hx] at hc
        exact absurd hc (by simp)
      | succ j => exact hget
    · simp only [updateFirst, if_neg hx]
      cases j with
      | zero => exact hget
      | succ j =>
        simp only [List.get?] at hget ⊢
        exact updateFirst_get?_of_neg hget hc

theorem findFirst_updateFirst {p : α → Bool} {f : α → α} :
    ∀ {l : List α} {b : α}, findFirst p l = some b → p (f b) = true →
      findFirst p (updateFirst p f l) = some (f b)
  | x :: xs, b, h, hfb => by
    by_cases hx : p x = true
    · simp only [findFirst, if_pos hx, Option.some.injEq] at h
      subst h
      simp only [updateFirst, if_pos hx, findFirst, if_pos hfb]
    · simp only [findFirst, if_neg hx] at h
      simp only [updateFirst, if_neg hx, findFirst, if_neg hx]
      exact findFirst_updateFirst h hfb

theorem mem_updateFirst {p : α → Bool} {f : α → α} :
    ∀ {l : List α} {x : α}, x ∈ updateFirst p f l → x ∈ l ∨ ∃ y, y ∈ l ∧ x = f y
  | a :: as, x, h => by
    by_cases ha : p a = true
    · simp only [updateFirst, if_pos ha, List.mem_cons] at h
      rcases h with h | h
      · exact Or.inr ⟨a, List.mem_cons_self a as, h⟩
      · exact Or.inl (List.mem_cons_of_mem a h)
    · simp only [updateFirst, if_neg ha, List.mem_cons] at h
      rcases h with h | h
      · exact Or.inl (h ▸ List.mem_cons_self a as)
      · rcases mem_updateFirst h with h' | ⟨y, hy, hxy⟩
        · exact Or.inl (List.mem_cons_of_mem a h')
        · exact Or.inr ⟨y, List.mem_cons_of_mem a hy, hxy⟩

theorem startsWithList_self_append :
    ∀ (sub rest : List Char), startsWithList sub (sub ++ rest) = true
  | [], _ => rfl
  | c :: cs, rest => by
    simp [startsWithList, startsWithList_self_append cs rest]

theorem containsList_of_startsWith :
    ∀ (sub l : List Char), startsWithList sub l = true → containsList sub l = true
  | sub, [], h => by simpa [containsList] using h
  | sub, x :: bs, h => by simp [containsList, h]

theorem containsList_append :
    ∀ (pre sub post : List Char), containsList sub ((pre ++ sub) ++ post) = true
  | [], sub, post =>
    containsList_of_startsWith _ _
      (by simpa using startsWithList_self_append sub post)
  | p :: ps, sub, post => by
    simp only [List.cons_append, containsList, List.append_eq]
    rw [containsList_append ps sub post, Bool.or_true]

/-- `(a ++ b ++ c).includes(b)` holds. -/
theorem strIncludes_middle (a b c : String) : strIncludes (a ++ b ++ c) b = true := by
  simp only [strIncludes, String.data_append]
  exact containsList_append a.data b.data c.data

theorem charListCmp_swap : ∀ a b : List Char, charListCmp b a = -(charListCmp a b)
  | [], [] => rfl
  | [], _ :: _ => rfl
  | _ :: _, [] => rfl
  | a :: as, b :: bs => by
    simp only [charListCmp]
    rcases lt_trichotomy a b with h | h | h
    · rw [if_neg (asymm h), if_pos h, if_pos h]
      norm_num
    · subst h
      simp only [lt_self_iff_false, if_false]
      exact charListCmp_swap as bs
    · rw [if_pos h, if_neg (asymm h), if_pos h]

theorem charListCmp_trans : ∀ a b c : List Char,
    charListCmp a b ≤ 0 → charListCmp b c ≤ 0 → charListCmp a c ≤ 0
  | [], _, [], _, _ => by simp [charListCmp]
  | [], _, _ :: _, _, _ => by simp [charListCmp]
  | _ :: _, [], _, h1, _ => by simp [charListCmp] at h1
  | _ :: _, _ :: _, [], _, h2 => by simp [charListCmp] at h2
  | x :: xs, y :: ys, z :: zs, h1, h2 => by
    simp only [charListCmp] at h1 h2 ⊢
    by_cases hxy : x < y
    · by_cases hyz : y < z
      · rw [if_pos (lt_trans hxy hyz)]; norm_num
      · by_cases hzy : z < y
        · rw [if_neg hyz, if_pos hzy] at h2; omega
        · have hyz' : y = z := le_antisymm (not_lt.mp hzy) (not_lt.mp hyz)
          subst hyz'
          rw [if_pos hxy]; norm_num
    · by_cases hyx : y < x
      · rw [if_neg hxy, if_pos hyx] at h1; omega
      · have hxy' : x = y := le_antisymm (not_lt.mp hyx) (not_lt.mp hxy)
        subst hxy'
        rw [if_neg (lt_irrefl x), if_neg (lt_irrefl x)] at h1
        by_cases hxz : x < z
        · rw [if_pos hxz]; norm_num
        · by_cases hzx : z < x
          · rw [if_neg hxz, if_pos hzx] at h2; omega
          · rw [if_neg hxz, if_neg hzx] at h2 ⊢
            exact charListCmp_trans xs ys zs h1 h2

theorem cmpGen_trans (g : α → Int) (n : α → List Char) (a b c : α)
    (h1 : cmpGen g n a b ≤ 0) (h2 : cmpGen g n b c ≤ 0) : cmpGen g n a c ≤ 0 := by
  unfold cmpGen at h1 h2 ⊢
  by_cases hab : g a = g b
  · by_cases hbc : g b = g c
    · rw [if_neg (by rw [hab, hbc]; simp)]
      rw [if_neg (by simp [hab])] at h1
      rw [if_neg (by simp [hbc])] at h2
      exact charListCmp_trans _ _ _ h1 h2
    · rw [if_pos (by rw [hab]; exact hbc)]
      rw [if_pos hbc] at h2
      omega
  · by_cases hbc : g b = g c
    · rw [if_pos (by rw [← hbc]; exact hab)]
      rw [if_pos hab] at h1
      omega
    · rw [if_pos hab] at h1
      rw [if_pos hbc] at h2
      by_cases hac : g a = g c
      · omega
      · rw [if_pos hac]; omega

theorem cmpGen_total (g : α → Int) (n : α → List Char) (a b : α) :
    cmpGen g n a b ≤ 0 ∨ cmpGen g n b a ≤ 0 := by
  unfold cmpGen
  by_cases hab : g a = g b
  · rw [if_neg (by simp [hab]), if_neg (by simp [hab])]
    have := charListCmp_swap (n a) (n b)
    omega
  · rw [if_pos hab, if_pos (Ne.symm hab)]
    omega

theorem cmpSearch_eq_cmpGen (a b : Book) :
    db.cmpSearch a b =
      cmpGen (fun x => if x.stock ≤ 3 then 0 else 1) (fun x => x.name.data) a b := rfl

/-! ### Small facts about `updateStock` -/

theorem updateStock_sales (s : Store) (id delta : Int) (now : String) :
    (db.updateStock s id delta now).sales = s.sales := by
  unfold db.updateStock
  cases findFirst (fun b => b.id == id) s.books
  · rfl
  · dsimp only
    split <;> rfl

theorem updateStock_expenses (s : Store) (id delta : Int) (now : String) :
    (db.updateStock s id delta now).expenses = s.expenses := by
  unfold db.updateStock
  cases findFirst (fun b => b.id == id) s.books
  · rfl
  · dsimp only
    split <;> rfl

theorem updateStock_books (s : Store) (id delta : Int) (now : String) (b : Book)
    (hfind : findFirst (fun x => x.id == id) s.books = some b) :
    (db.updateStock s id delta now).books =
      updateFirst (fun x => x.id == id) (stockAdjust delta now) s.books := by
  unfold db.updateStock stockAdjust
  rw [hfind]
  dsimp only
  split <;> rfl

theorem updateStock_restocks_pos (s : Store) (id delta : Int) (now : String) (b : Book)
    (hfind : findFirst (fun x => x.id == id) s.books = some b) (h : delta > 0) :
    (db.updateStock s id delta now).restocks =
      s.restocks ++ [{ id := s.nextRestockId, bookId := id, bookName := b.name,
                       qtyAdded := delta, date := now }] := by
  unfold db.updateStock
  rw [hfind]
  dsimp only
  rw [if_pos h]
  rfl

theorem updateStock_restocks_nonpos (s : Store) (id delta : Int) (now : String)
    (hnp : ¬ delta > 0) :
    (db.updateStock s id delta now).restocks = s.restocks := by
  unfold db.updateStock
  cases findFirst (fun b => b.id == id) s.books
  · rfl
  · dsimp only
    rw [if_neg hnp]

theorem findFirst_updateStock (s : Store) (id delta : Int) (now : String) (b : Book)
    (hfind : findFirst (fun x => x.id == id) s.books = some b) :
    findFirst (fun x => x.id == id) (db.updateStock s id delta now).books =
      some (stockAdjust delta now b) := by
  rw [updateStock_books s id delta now b hfind]
  refine findFirst_updateFirst hfind ?_
  have hb := findFirst_some (p := fun x : Book => x.id == id) hfind
  simpa [stockAdjust] using hb

/-! ### Claim C3 -/

/-- Claim C3: for every book id present in the Store and every integer
`delta`, after `updateStock(id, delta)` the book's stock equals
`max(0, old stock + delta)`; a new Restock record with `qtyAdded = delta`
and that book's id and name is appended iff `delta > 0`, and when
`delta > 0` the book's `lastStockedAt` is set to the current timestamp. -/
theorem updateStock_clamps_and_restocks (s : Store) (id delta : Int) (now : String)
    (b : Book) (hfind : findFirst (fun x => x.id == id) s.books = some b) :
    ((findFirst (fun x => x.id == id) (db.updateStock s id delta now).books).map Book.stock
        = some (max 0 (b.stock + delta))) ∧
    (delta > 0 →
      (findFirst (fun x => x.id == id) (db.updateStock s id delta now).books).map
          Book.lastStockedAt = some (some now)) ∧
    (delta > 0 →
      (db.updateStock s id delta now).restocks =
        s.restocks ++ [{ id := s.nextRestockId, bookId := id, bookName := b.name,
                         qtyAdded := delta, date := now }]) ∧
    (¬ delta > 0 → (db.updateStock s id delta now).restocks = s.restocks) := by
  refine ⟨?_, ?_, ?_, ?_⟩
  · rw [findFirst_updateStock s id delta now b hfind]
    rfl
  · intro h
    rw [findFirst_updateStock s id delta now b hfind]
    simp [stockAdjust, if_pos h]
  · exact updateStock_restocks_pos s id delta now b hfind
  · exact updateStock_restocks_nonpos s id delta now

theorem updateStock_clamps_and_restocks_witness :
    (findFirst (fun x => x.id == 1) sampleStore.books = some sampleBook) ∧
    ((findFirst (fun x => x.id == 1) (db.updateStock sampleStore 1 4 "T").books).map Book.stock
        = some (max 0 (sampleBook.stock + 4))) ∧
    ((findFirst (fun x => x.id == 1) (db.updateStock sampleStore 1 4 "T").books).map
        Book.lastStockedAt = some (some "T")) ∧
    ((db.updateStock sampleStore 1 4 "T").restocks =
      sampleStore.restocks ++ [{ id := sampleStore.nextRestockId, bookId := 1,
                                 bookName := sampleBook.name, qtyAdded := 4,
                                 date := "T" }]) := by
  have h := updateStock_clamps_and_restocks sampleStore 1 4 "T" sampleBook (by decide)
  exact ⟨by decide, h.1, h.2.1 (by decide), h.2.2.1 (by decide)⟩

/-! ### Claim C2 -/

/-- Claim C2: for every book present in the Store with `stock ≥ qty`,
`recordSale(bookId, qty, totalAmount, costPrice, bookName)` appends exactly
one Sale whose profit is `totalAmount - qty*costPrice` and whose other
fields equal the arguments; afterwards that book's stock equals its
previous stock minus `qty`, while all books with other ids and the
expenses collection are unchanged. -/
theorem recordSale_appends_sale_and_decrements (s : Store) (bookId qty : Int)
    (totalAmount costPrice : ℚ) (bookName now : String) (b : Book)
    (hfind : findFirst (fun x => x.id == bookId) s.books = some b)
    (hstock : qty ≤ b.stock) :
    ((db.recordSale s bookId qty totalAmount costPrice bookName now).sales =
      s.sales ++ [{ id := s.nextSaleId, bookId := bookId, bookName := bookName,
                    qty := qty, totalAmount := totalAmount,
                    profit := totalAmount - (qty : ℚ) * costPrice, date := now }]) ∧
    ((findFirst (fun x => x.id == bookId)
        (db.recordSale s bookId qty totalAmount costPrice bookName now).books).map Book.stock
      = some (b.stock - qty)) ∧
    (∀ j c, s.books.get? j = some c → c.id ≠ bookId →
      (db.recordSale s bookId qty totalAmount costPrice bookName now).books.get? j = some c) ∧
    ((db.recordSale s bookId qty totalAmount costPrice bookName now).expenses = s.expenses) := by
  have hmid : ∀ t : Store, t.books = s.books →
      (findFirst (fun x => x.id == bookId) (db.updateStock t bookId (-qty) now).books).map
          Book.stock = some (b.stock - qty) ∧
      (∀ j c, s.books.get? j = some c → c.id ≠ bookId →
        (db.updateStock t bookId (-qty) now).books.get? j = some c) := by
    intro t ht
    have hfindt : findFirst (fun x => x.id == bookId) t.books = some b := ht ▸ hfind
    constructor
    · rw [findFirst_updateStock t bookId (-qty) now b hfindt]
      have hmax : max (0 : Int) (b.stock + -qty) = b.stock - qty := by
        rw [max_eq_right (by omega : (0 : Int) ≤ b.stock + -qty)]
        omega
      simp only [stockAdjust, Option.map_some, hmax]
      rfl
    · intro j c hget hne
      rw [updateStock_books t bookId (-qty) now b hfindt, ht]
      refine updateFirst_get?_of_neg hget ?_
      simp [hne]
  unfold db.recordSale
  dsimp only
  refine ⟨updateStock_sales _ _ _ _, ?_, ?_, updateStock_expenses _ _ _ _⟩
  · exact (hmid { s with
      sales := s.sales ++ [{ id := s.nextSaleId, bookId := bookId, bookName := bookName,
                             qty := qty, totalAmount := totalAmount,
                             profit := totalAmount - (qty : ℚ) * costPrice, date := now }],
      nextSaleId := s.nextSaleId + 1 } rfl).1
  · exact (hmid { s with
      sales := s.sales ++ [{ id := s.nextSaleId, bookId := bookId, bookName := bookName,
                             qty := qty, totalAmount := totalAmount,
                             profit := totalAmount - (qty : ℚ) * costPrice, date := now }],
      nextSaleId := s.nextSaleId + 1 } rfl).2

theorem recordSale_appends_sale_and_decrements_witness :
    (findFirst (fun x => x.id == 1) sampleStore.books = some sampleBook) ∧
    (2 ≤ sampleBook.stock) ∧
    ((db.recordSale sampleStore 1 2 20 5 "A" "T").sales =
      sampleStore.sales ++ [{ id := sampleStore.nextSaleId, bookId := 1, bookName := "A",
                              qty := 2, totalAmount := 20,
                              profit := 20 - (2 : ℚ) * 5, date := "T" }]) ∧
    ((findFirst (fun x => x.id == 1)
        (db.recordSale sampleStore 1 2 20 5 "A" "T").books).map Book.stock
      = some (sampleBook.stock - 2)) ∧
    ((db.recordSale sampleStore 1 2 20 5 "A" "T").expenses = sampleStore.expenses) := by
  have h := recordSale_appends_sale_and_decrements sampleStore 1 2 20 5 "A" "T" sampleBook
    (by decide) (by decide)
  exact ⟨by decide, by decide, h.1, h.2.1, h.2.2.2⟩

/-! ### Claim C6 -/

/-- Claim C6: `getDashboardStats` returns `netProfit` exactly equal to
`grossProfit - totalExpenses`, where `grossProfit` sums the sales' stored
profits and `totalExpenses` sums the expenses' amounts — an exact identity
for any data set; `profitMargin` is `netProfit/totalSales*100` whenever
`totalSales > 0`, and `0` when there are no sales. -/
theorem dashboard_netProfit_identity (s : Store) :
    ((db.getDashboardStats s).netProfit =
      (s.sales.map Sale.profit).sum - (s.expenses.map Expense.amount).sum) ∧
    ((db.getDashboardStats s).grossProfit = (s.sales.map Sale.profit).sum) ∧
    ((db.getDashboardStats s).totalExpenses = (s.expenses.map Expense.amount).sum) ∧
    ((db.getDashboardStats s).totalSales = (s.sales.map Sale.totalAmount).sum) ∧
    (0 < (db.getDashboardStats s).totalSales →
      (db.getDashboardStats s).profitMargin =
        (db.getDashboardStats s).netProfit / (db.getDashboardStats s).totalSales * 100) ∧
    (s.sales = [] → (db.getDashboardStats s).profitMargin = 0) := by
  have hprof : s.sales.foldl (fun acc t => acc + t.profit) 0 =
      (s.sales.map Sale.profit).sum := by
    rw [foldl_add_eq_sum, zero_add]
  have hexp : s.expenses.foldl (fun acc e => acc + e.amount) 0 =
      (s.expenses.map Expense.amount).sum := by
    rw [foldl_add_eq_sum, zero_add]
  have hsales : s.sales.foldl (fun acc t => acc + t.totalAmount) 0 =
      (s.sales.map Sale.totalAmount).sum := by
    rw [foldl_add_eq_sum, zero_add]
  refine ⟨?_, ?_, ?_, ?_, ?_, ?_⟩ <;>
    simp only [db.getDashboardStats, hprof, hexp, hsales]
  · intro h
    rw [if_pos h]
  · intro h
    simp [h]

theorem dashboard_netProfit_identity_witness :
    ((db.getDashboardStats statsStore).netProfit =
      (statsStore.sales.map Sale.profit).sum -
        (statsStore.expenses.map Expense.amount).sum) ∧
    (0 < (db.getDashboardStats statsStore).totalSales) ∧
    ((db.getDashboardStats statsStore).profitMargin =
      (db.getDashboardStats statsStore).netProfit /
        (db.getDashboardStats statsStore).totalSales * 100) ∧
    (sampleStore.sales = []) ∧
    ((db.getDashboardStats sampleStore).profitMargin = 0) := by
  have h1 := dashboard_netProfit_identity statsStore
  have h2 := dashboard_netProfit_identity sampleStore
  have ht : (db.getDashboardStats statsStore).totalSales = 20 := by
    norm_num [db.getDashboardStats, statsStore, sampleSale, sampleExpense]
  have hpos : 0 < (db.getDashboardStats statsStore).totalSales := by
    rw [ht]; norm_num
  exact ⟨h1.1, hpos, h1.2.2.2.2.1 hpos, rfl, h2.2.2.2.2.2 rfl⟩

/-! ### Claim C8 -/

/-- Claim C8 counterexample: a book with stock 2 and targetStock 0 fails
the claim's condition `stock ≤ targetStock ∨ stock = 0`, yet the code puts
it in `getLowStockBooks` because `targetStock || 3` falls back to 3. -/
theorem lowStock_targetZero_counterexample :
    db.getLowStockBooks zeroTargetStore = [zeroTargetBook] ∧
    ¬ (zeroTargetBook.stock ≤ zeroTargetBook.targetStock ∨
       zeroTargetBook.stock = 0) := by decide

/-- Claim C8 amended: a book is in `getLowStockBooks()` iff its stock is
`≤ targetStock` — with `targetStock` read as 3 when it is 0, via the
`targetStock || 3` fallback — or its stock is 0 (so for `targetStock = 5`
the boundary behaves exactly as the claim lists); `lowStockCount` equals
the number of such books. -/
theorem lowStock_boundary (s : Store) (b : Book) :
    (b ∈ db.getLowStockBooks s ↔
      b ∈ s.books ∧
        (b.stock ≤ (if b.targetStock = 0 then 3 else b.targetStock) ∨ b.stock = 0)) ∧
    (db.getDashboardStats s).lowStockCount = (db.getLowStockBooks s).length := by
  constructor
  · rw [db.getLowStockBooks, List.mem_filter]
    constructor
    · rintro ⟨hmem, hp⟩
      refine ⟨hmem, ?_⟩
      simpa [db.lowStockPred, Bool.or_eq_true, decide_eq_true_iff, beq_iff_eq] using hp
    · rintro ⟨hmem, hp⟩
      refine ⟨hmem, ?_⟩
      simpa [db.lowStockPred, Bool.or_eq_true, decide_eq_true_iff, beq_iff_eq] using hp
  · rfl

theorem lowStock_boundary_witness :
    boundaryBookA ∈ db.getLowStockBooks boundaryStore ∧
    boundaryBookB ∈ db.getLowStockBooks boundaryStore ∧
    boundaryBookC ∉ db.getLowStockBooks boundaryStore ∧
    (db.getDashboardStats boundaryStore).lowStockCount = 2 := by
  refine ⟨((lowStock_boundary boundaryStore boundaryBookA).1).mpr (by decide),
          ((lowStock_boundary boundaryStore boundaryBookB).1).mpr (by decide),
          fun hmem => ?_, ?_⟩
  · have h := ((lowStock_boundary boundaryStore boundaryBookC).1).mp hmem
    revert h
    decide
  · rw [(lowStock_boundary boundaryStore boundaryBookA).2]
    decide

/-! ### Claim C5 -/

/-- Claim C5 counterexample: feeding `getRawData()` back into
`restoreData()` on `reachedStore` recomputes `nextBookId` as
`max id + 1 = 2`, while it was 3 before, so the observable state
(including the next-id counters) is not identical. -/
theorem roundTrip_counterexample :
    (db.restoreData reachedStore (db.getRawData reachedStore)).nextBookId = 2 ∧
    reachedStore.nextBookId = 3 ∧
    db.restoreData reachedStore (db.getRawData reachedStore) ≠ reachedStore := by
  decide

/-- Claim C5 amended: the round trip preserves the four collections
exactly; each next-id counter is recomputed as `max id + 1` when its
collection is non-empty and left unchanged when it is empty — so the full
state (counters included) is preserved only when every counter already had
that value. -/
theorem roundTrip_collections (s : Store) :
    ((db.restoreData s (db.getRawData s)).books = s.books) ∧
    ((db.restoreData s (db.getRawData s)).sales = s.sales) ∧
    ((db.restoreData s (db.getRawData s)).expenses = s.expenses) ∧
    ((db.restoreData s (db.getRawData s)).restocks = s.restocks) ∧
    ((db.restoreData s (db.getRawData s)).nextBookId =
      if s.books.isEmpty then s.nextBookId else listMax (s.books.map Book.id) + 1) ∧
    ((db.restoreData s (db.getRawData s)).nextSaleId =
      if s.sales.isEmpty then s.nextSaleId else listMax (s.sales.map Sale.id) + 1) ∧
    ((db.restoreData s (db.getRawData s)).nextExpenseId =
      if s.expenses.isEmpty then s.nextExpenseId
      else listMax (s.expenses.map Expense.id) + 1) ∧
    ((db.restoreData s (db.getRawData s)).nextRestockId =
      if s.restocks.isEmpty then s.nextRestockId
      else listMax (s.restocks.map Restock.id) + 1) :=
  ⟨rfl, rfl, rfl, rfl, rfl, rfl, rfl, rfl⟩

/-! ### Claim C4 -/

theorem stockInv_updateStock (s : Store) (id delta : Int) (now : String)
    (h : StockInv s) : StockInv (db.updateStock s id delta now) := by
  intro x hx
  rcases hfind : findFirst (fun b => b.id == id) s.books with _ | b
  · unfold db.updateStock at hx
    rw [hfind] at hx
    exact h x hx
  · rw [updateStock_books s id delta now b hfind] at hx
    rcases mem_updateFirst hx with hx' | ⟨y, hy, rfl⟩
    · exact h x hx'
    · simp only [stockAdjust]
      exact le_max_left 0 _

theorem stockInv_recordSale (s : Store) (bookId qty : Int) (t c : ℚ)
    (n now : String) (h : StockInv s) :
    StockInv (db.recordSale s bookId qty t c n now) := by
  unfold db.recordSale
  dsimp only
  exact stockInv_updateStock _ bookId (-qty) now (fun b hb => h b hb)

theorem stockInv_updateBook (s : Store) (b : Book) (h : StockInv s)
    (hb : 0 ≤ b.stock) : StockInv (db.updateBook s b) := by
  intro x hx
  unfold db.updateBook at hx
  rcases hfind : findFirst (fun y => y.id == b.id) s.books with _ | y <;>
    rw [hfind] at hx
  · exact h x hx
  · dsimp only at hx
    rcases mem_updateFirst hx with hx' | ⟨z, hz, rfl⟩
    · exact h x hx'
    · exact hb

theorem stockInv_applyOp (s : Store) (op : StoreOp)
    (h : StockInv s) (hop : opStockOk op = true) : StockInv (applyOp s op) := by
  cases op with
  | addBook d now =>
    intro x hx
    unfold applyOp db.addBook db.recordRestock at hx
    dsimp only at hx
    rcases List.mem_append.mp hx with hx' | hx'
    · exact h x hx'
    · rw [List.mem_singleton] at hx'
      subst hx'
      simpa [opStockOk] using hop
  | updateBook b =>
    exact stockInv_updateBook s b h (by simpa [opStockOk] using hop)
  | deleteBook id =>
    intro x hx
    unfold applyOp db.deleteBook at hx
    dsimp only at hx
    exact h x (List.mem_filter.mp hx).1
  | updateStock id delta now => exact stockInv_updateStock s id delta now h
  | recordSale bookId qty t c n now => exact stockInv_recordSale s bookId qty t c n now h
  | restoreData d =>
    intro x hx
    unfold applyOp db.restoreData db.loadIds at hx
    dsimp only at hx
    simp only [opStockOk, List.all_eq_true, decide_eq_true_iff] at hop
    exact hop x hx
  | clearAllData =>
    intro x hx
    simp [applyOp, db.clearAllData] at hx

/-- Claim C4 amended: starting from a state in which every book's stock is
non-negative, any sequence of `addBook`, `updateBook`, `deleteBook`,
`updateStock`, `recordSale`, `restoreData`, `clearAllData` calls whose book
inputs (for `addBook`/`updateBook`/`restoreData`) themselves carry
non-negative stock leaves every stock non-negative; `updateStock` and
`recordSale` clamp decreases at zero unconditionally. -/
theorem stockInv_preserved (ops : List StoreOp) (s : Store)
    (hs : StockInv s) (hops : ∀ op ∈ ops, opStockOk op = true) :
    StockInv (ops.foldl applyOp s) := by
  induction ops generalizing s with
  | nil => exact hs
  | cons op rest ih =>
    exact ih (applyOp s op)
      (stockInv_applyOp s op hs (hops op (List.mem_cons_self op rest)))
      (fun op' h' => hops op' (List.mem_cons_of_mem op h'))

/-- Claim C4 counterexample: from a store satisfying the invariant, the
single listed call `updateBook` with a book whose stock is −1 (which the
source stores unclamped) breaks `stock ≥ 0`. -/
theorem stockInv_counterexample :
    StockInv sampleStore ∧
    ¬ StockInv (List.foldl applyOp sampleStore [StoreOp.updateBook negStockBook]) := by
  decide

theorem stockInv_preserved_witness :
    StockInv sampleStore ∧
    (∀ op ∈ [StoreOp.updateStock 1 (-20) "T",
             StoreOp.recordSale 1 2 20 5 "A" "T2",
             StoreOp.deleteBook 7], opStockOk op = true) ∧
    StockInv (List.foldl applyOp sampleStore
      [StoreOp.updateStock 1 (-20) "T",
       StoreOp.recordSale 1 2 20 5 "A" "T2",
       StoreOp.deleteBook 7]) := by
  refine ⟨by decide, by decide, stockInv_preserved _ _ (by decide) (by decide)⟩

/-! ### Sorting lemmas for `sortJs` -/

theorem insertCmp_perm (le : α → α → Bool) (x : α) :
    ∀ l : List α, (insertCmp le x l).Perm (x :: l)
  | [] => List.Perm.refl _
  | y :: ys => by
    unfold insertCmp
    split
    · exact ((insertCmp_perm le x ys).cons y).trans (List.Perm.swap x y ys)
    · exact List.Perm.refl _

theorem sortJsAux_perm (le : α → α → Bool) :
    ∀ (l acc : List α),
      (l.foldl (fun acc x => insertCmp le x acc) acc).Perm (acc ++ l)
  | [], acc => by simp
  | x :: xs, acc => by
    simp only [List.foldl_cons]
    refine (sortJsAux_perm le xs (insertCmp le x acc)).trans ?_
    refine (List.Perm.append_right xs (insertCmp_perm le x acc)).trans ?_
    exact List.perm_middle.symm

theorem sortJs_perm (le : α → α → Bool) (l : List α) : (sortJs le l).Perm l := by
  simpa using sortJsAux_perm le l []

theorem pairwise_insertCmp (le : α → α → Bool)
    (htrans : ∀ a b c, le a b = true → le b c = true → le a c = true)
    (htotal : ∀ a b, le a b = true ∨ le b a = true) (x : α) :
    ∀ {l : List α}, l.Pairwise (fun a b => le a b = true) →
      (insertCmp le x l).Pairwise (fun a b => le a b = true)
  | [], _ => by simp [insertCmp]
  | y :: ys, hl => by
    unfold insertCmp
    rcases List.pairwise_cons.mp hl with ⟨hy, hys⟩
    by_cases hyx : le y x = true
    · rw [if_pos hyx]
      refine List.pairwise_cons.mpr ⟨?_, pairwise_insertCmp le htrans htotal x hys⟩
      intro z hz
      rcases List.mem_cons.mp ((insertCmp_perm le x ys).mem_iff.mp hz) with rfl | hz'
      · exact hyx
      · exact hy z hz'
    · rw [if_neg hyx]
      have hxy : le x y = true := (htotal x y).resolve_right hyx
      refine List.pairwise_cons.mpr ⟨?_, hl⟩
      intro z hz
      rcases List.mem_cons.mp hz with rfl | hz'
      · exact hxy
      · exact htrans x y z hxy (hy z hz')

theorem sortJsAux_pairwise (le : α → α → Bool)
    (htrans : ∀ a b c, le a b = true → le b c = true → le a c = true)
    (htotal : ∀ a b, le a b = true ∨ le b a = true) :
    ∀ (l acc : List α), acc.Pairwise (fun a b => le a b = true) →
      (l.foldl (fun acc x => insertCmp le x acc) acc).Pairwise
        (fun a b => le a b = true)
  | [], _, hacc => hacc
  | x :: xs, acc, hacc =>
    sortJsAux_pairwise le htrans htotal xs _
      (pairwise_insertCmp le htrans htotal x hacc)

theorem sortJs_pairwise (le : α → α → Bool)
    (htrans : ∀ a b c, le a b = true → le b c = true → le a c = true)
    (htotal : ∀ a b, le a b = true ∨ le b a = true) (l : List α) :
    (sortJs le l).Pairwise (fun a b => le a b = true) :=
  sortJsAux_pairwise le htrans htotal l [] (List.Pairwise.nil)

/-! ### Claim C9 -/

theorem cmpSearch_trans (a b c : Book) (h1 : db.cmpSearch a b ≤ 0)
    (h2 : db.cmpSearch b c ≤ 0) : db.cmpSearch a c ≤ 0 := by
  rw [cmpSearch_eq_cmpGen] at h1 h2 ⊢
  exact cmpGen_trans _ _ _ _ _ h1 h2

theorem cmpSearch_total (a b : Book) :
    db.cmpSearch a b ≤ 0 ∨ db.cmpSearch b a ≤ 0 := by
  rw [cmpSearch_eq_cmpGen, cmpSearch_eq_cmpGen]
  exact cmpGen_total _ _ a b

/-- Claim C9 counterexample: both books match the empty query, yet the
orders differ — `getAllBooks` flags book X (stock 5 ≤ targetStock 10) as
low stock and lists it first, while `searchBooks` uses the hardcoded
threshold 3, flags neither, and so sorts alphabetically. -/
theorem searchBooks_order_counterexample :
    (searchStore.books.filter (db.searchMatch (strToLower "")) = searchStore.books) ∧
    db.searchBooks searchStore "" = [searchBookY, searchBookX] ∧
    db.getAllBooks searchStore = [searchBookX, searchBookY] ∧
    db.searchBooks searchStore "" ≠ db.getAllBooks searchStore := by decide

/-- Claim C9 amended: `searchBooks(query)` returns exactly the books whose
name or author contains the query case-insensitively, sorted low-stock
first with the hardcoded threshold `stock ≤ 3` (not `getAllBooks`'
`targetStock || 3` threshold) and then by name — so its order agrees with
`getAllBooks` only when the two thresholds classify every book alike. -/
theorem searchBooks_match_and_sorted (s : Store) (q : String) :
    (∀ b, b ∈ db.searchBooks s q ↔
      b ∈ s.books ∧ db.searchMatch (strToLower q) b = true) ∧
    (db.searchBooks s q).Perm (s.books.filter (db.searchMatch (strToLower q))) ∧
    List.Pairwise (fun a b => db.cmpSearch a b ≤ 0) (db.searchBooks s q) := by
  have hperm : (db.searchBooks s q).Perm
      (s.books.filter (db.searchMatch (strToLower q))) := by
    unfold db.searchBooks
    exact sortJs_perm _ _
  refine ⟨?_, hperm, ?_⟩
  · intro b
    rw [hperm.mem_iff, List.mem_filter]
  · have hs := sortJs_pairwise
      (fun a b : Book => decide (db.cmpSearch a b ≤ 0))
      (fun a b c h1 h2 => by
        rw [decide_eq_true_iff] at h1 h2 ⊢
        exact cmpSearch_trans a b c h1 h2)
      (fun a b => by
        rw [decide_eq_true_iff, decide_eq_true_iff]
        exact cmpSearch_total a b)
      (s.books.filter (db.searchMatch (strToLower q)))
    have heq : db.searchBooks s q =
        sortJs (fun a b => decide (db.cmpSearch a b ≤ 0))
          (s.books.filter (db.searchMatch (strToLower q))) := rfl
    rw [heq]
    exact hs.imp (fun h => decide_eq_true_iff.mp h)

theorem searchBooks_match_and_sorted_witness :
    (searchBookX ∈ db.searchBooks searchStore "") ∧
    List.Pairwise (fun a b => db.cmpSearch a b ≤ 0)
      (db.searchBooks searchStore "") := by
  have h := searchBooks_match_and_sorted searchStore ""
  exact ⟨(h.1 searchBookX).mpr (by decide), h.2.2⟩

/-! ### More containment lemmas, for the validator messages -/

theorem containsList_nil : ∀ l : List Char, containsList [] l = true
  | [] => rfl
  | _ :: bs => by simp [containsList, startsWithList]

theorem startsWithList_append_right {sub : List Char} :
    ∀ {l : List Char} (post : List Char), startsWithList sub l = true →
      startsWithList sub (l ++ post) = true := by
  induction sub with
  | nil => intro l post _; rfl
  | cons c cs ih =>
    intro l post h
    cases l with
    | nil => simp [startsWithList] at h
    | cons b bs =>
      simp only [startsWithList, Bool.and_eq_true] at h ⊢
      exact ⟨h.1, ih post h.2⟩

theorem containsList_append_left (pre : List Char) {sub l : List Char}
    (h : containsList sub l = true) : containsList sub (pre ++ l) = true := by
  induction pre with
  | nil => simpa using h
  | cons p ps ih =>
    simp only [List.cons_append, containsList, Bool.or_eq_true]
    exact Or.inr ih

theorem containsList_append_right {sub : List Char} :
    ∀ {l : List Char} (post : List Char), containsList sub l = true →
      containsList sub (l ++ post) = true := by
  intro l
  induction l with
  | nil =>
    intro post h
    simp only [containsList] at h
    cases sub with
    | nil => simpa using containsList_nil post
    | cons c cs => simp [startsWithList] at h
  | cons b bs ih =>
    intro post h
    simp only [containsList, Bool.or_eq_true] at h
    simp only [List.cons_append, containsList, Bool.or_eq_true]
    rcases h with h | h
    · exact Or.inl (startsWithList_append_right post h)
    · exact Or.inr (ih post h)

/-! ### Claim C1 -/

/-- Claim C1: for every workbook carrying a required sheet and non-empty
validated data, the snapshot is captured before the destructive write; if
the clear-or-write phase raises, the snapshot is written back, so the
final persisted state (all four collections) equals the pre-restore state,
and the result is `success = false` with message
'Restore failed, previous data has been kept'. -/
theorem restore_rollback (vd : String → Bool) (wb : Workbook) (s inter : Store)
    (emsg : String)
    (hsheets : wb.booksSheet.isSome = true ∨ wb.salesSheet.isSome = true)
    (hdata : ¬ ((wbValidBooks wb).1.isEmpty = true ∧
                (wbValidSales vd wb).1.isEmpty = true ∧
                (wbValidExpenses vd wb).1.isEmpty = true)) :
    ((restoreFromExcel vd wb s (.fail inter emsg)).2.books = s.books) ∧
    ((restoreFromExcel vd wb s (.fail inter emsg)).2.sales = s.sales) ∧
    ((restoreFromExcel vd wb s (.fail inter emsg)).2.expenses = s.expenses) ∧
    ((restoreFromExcel vd wb s (.fail inter emsg)).2.restocks = s.restocks) ∧
    ((restoreFromExcel vd wb s (.fail inter emsg)).1.success = false) ∧
    ((restoreFromExcel vd wb s (.fail inter emsg)).1.message =
      "Restore failed, previous data has been kept") := by
  have h1 : ¬ (¬ wb.booksSheet.isSome = true ∧ ¬ wb.salesSheet.isSome = true) :=
    fun ⟨ha, hb⟩ => hsheets.elim ha hb
  unfold restoreFromExcel
  dsimp only
  rw [if_neg h1, if_neg hdata]
  exact ⟨rfl, rfl, rfl, rfl, rfl, rfl⟩

theorem restore_rollback_witness :
    (wbGood.booksSheet.isSome = true ∨ wbGood.salesSheet.isSome = true) ∧
    (¬ ((wbValidBooks wbGood).1.isEmpty = true ∧
        (wbValidSales (fun _ => false) wbGood).1.isEmpty = true ∧
        (wbValidExpenses (fun _ => false) wbGood).1.isEmpty = true)) ∧
    ((restoreFromExcel (fun _ => false) wbGood rollStore
        (.fail emptyStore "boom")).2.books = rollStore.books) ∧
    ((restoreFromExcel (fun _ => false) wbGood rollStore
        (.fail emptyStore "boom")).2.restocks = rollStore.restocks) ∧
    ((restoreFromExcel (fun _ => false) wbGood rollStore
        (.fail emptyStore "boom")).1.success = false) ∧
    ((restoreFromExcel (fun _ => false) wbGood rollStore
        (.fail emptyStore "boom")).1.message =
      "Restore failed, previous data has been kept") := by
  have h := restore_rollback (fun _ => false) wbGood rollStore emptyStore "boom"
    (by decide) (by decide)
  exact ⟨by decide, by decide, h.1, h.2.2.2.1, h.2.2.2.2.1, h.2.2.2.2.2⟩

/-! ### Claim C10 -/

/-- Claim C10: a successful `restoreFromExcel` leaves the restocks
collection empty, whatever the workbook's contents and however many
Restock records existed before: the write phase hands `restoreData` no
restocks field, which it persists as the empty list. -/
theorem restore_empties_restocks (vd : String → Bool) (wb : Workbook) (s : Store)
    (hsuccess : (restoreFromExcel vd wb s .ok).1.success = true) :
    (restoreFromExcel vd wb s .ok).2.restocks = [] := by
  unfold restoreFromExcel at hsuccess ⊢
  dsimp only at hsuccess ⊢
  by_cases h1 : (¬ wb.booksSheet.isSome = true ∧ ¬ wb.salesSheet.isSome = true)
  · rw [if_pos h1] at hsuccess
    simp at hsuccess
  · rw [if_neg h1] at hsuccess ⊢
    by_cases h2 : ((wbValidBooks wb).1.isEmpty = true ∧
        (wbValidSales vd wb).1.isEmpty = true ∧
        (wbValidExpenses vd wb).1.isEmpty = true)
    · rw [if_pos h2] at hsuccess
      simp at hsuccess
    · rw [if_neg h2]
      rfl

theorem restore_empties_restocks_witness :
    ((restoreFromExcel (fun _ => false) wbGood rollStore .ok).1.success = true) ∧
    ((restoreFromExcel (fun _ => false) wbGood rollStore .ok).2.restocks = []) := by
  refine ⟨by decide, restore_empties_restocks (fun _ => false) wbGood rollStore (by decide)⟩

/-! ### Claim C7 -/

/-- Claim C7 amended: a Books row with an invalid id is dropped with a
single message naming its 1-based row number and 'Invalid id'; a Sales row
whose id is valid but whose date is unparseable is dropped with a message
naming the row number and 'Invalid date'; an Expenses row whose id is
valid but whose amount is missing, non-numeric, or negative is dropped
with a message naming the row number and 'Invalid amount'; and dropped
rows never abort the restore as long as any valid row remains (the id
check runs first, so a row with an invalid id is reported as 'Invalid id'
even when its date or amount is also bad). -/
theorem rowValidation_messages :
    (∀ (row : BookRow) (i : Nat), idCellInvalid row.id = true →
      ∃ msg, validateBookRow row i = (none, [msg]) ∧
        strIncludes msg (toString (i + 1)) = true ∧
        strIncludes msg "Invalid id" = true) ∧
    (∀ (vd : String → Bool) (row : SaleRow) (i : Nat), idCellInvalid row.id = false →
      isValidDateStr vd (cellOrEmpty row.date) = false →
      ∃ msg, validateSaleRow vd row i = (none, [msg]) ∧
        strIncludes msg (toString (i + 1)) = true ∧
        strIncludes msg "Invalid date" = true) ∧
    (∀ (vd : String → Bool) (row : ExpenseRow) (i : Nat), idCellInvalid row.id = false →
      (isValidNumber row.amount = false ∨ (numberJS row.amount).getD 0 < 0) →
      ∃ msg, validateExpenseRow vd row i = (none, [msg]) ∧
        strIncludes msg (toString (i + 1)) = true ∧
        strIncludes msg "Invalid amount" = true) ∧
    (∀ (vd : String → Bool) (wb : Workbook) (s : Store),
      (wb.booksSheet.isSome = true ∨ wb.salesSheet.isSome = true) →
      ¬ ((wbValidBooks wb).1.isEmpty = true ∧ (wbValidSales vd wb).1.isEmpty = true ∧
         (wbValidExpenses vd wb).1.isEmpty = true) →
      (restoreFromExcel vd wb s .ok).1.success = true) := by
  refine ⟨?_, ?_, ?_, ?_⟩
  · intro row i hbad
    refine ⟨"Books row " ++ toString (i + 1) ++ ": Invalid id", ?_, ?_, ?_⟩
    · unfold validateBookRow
      unfold idCellInvalid at hbad
      rcases hp : parseIntJS row.id with _ | k
      · rfl
      · rw [hp] at hbad
        dsimp only at hbad ⊢
        rw [if_pos (of_decide_eq_true hbad)]
    · simp only [strIncludes, String.data_append]
      exact containsList_append _ _ _
    · simp only [strIncludes, String.data_append]
      exact containsList_append_left _ (by decide)
  · intro vd row i hid hdate
    refine ⟨"Sales row " ++ toString (i + 1) ++ ": Invalid date \x22" ++
        cellOrEmpty row.date ++ "\x22", ?_, ?_, ?_⟩
    · unfold validateSaleRow
      unfold idCellInvalid at hid
      rcases hp : parseIntJS row.id with _ | k
      · rw [hp] at hid
        simp at hid
      · rw [hp] at hid
        dsimp only at hid ⊢
        rw [if_neg (of_decide_eq_false hid), if_pos (by simp [hdate])]
    · simp only [strIncludes, String.data_append]
      refine containsList_append_right _ (containsList_append_right _ ?_)
      exact containsList_append _ _ _
    · simp only [strIncludes, String.data_append]
      refine containsList_append_right _ (containsList_append_right _ ?_)
      exact containsList_append_left _ (by decide)
  · intro vd row i hid hamt
    refine ⟨"Expenses row " ++ toString (i + 1) ++ ": Invalid amount", ?_, ?_, ?_⟩
    · unfold validateExpenseRow
      unfold idCellInvalid at hid
      rcases hp : parseIntJS row.id with _ | k
      · rw [hp] at hid
        simp at hid
      · rw [hp] at hid
        dsimp only at hid ⊢
        rw [if_neg (of_decide_eq_false hid), if_pos ?_]
        rcases hamt with h | h
        · exact Or.inl (by simp [h])
        · exact Or.inr h
    · simp only [strIncludes, String.data_append]
      exact containsList_append _ _ _
    · simp only [strIncludes, String.data_append]
      exact containsList_append_left _ (by decide)
  · intro vd wb s hsheets hdata
    have h1 : ¬ (¬ wb.booksSheet.isSome = true ∧ ¬ wb.salesSheet.isSome = true) :=
      fun ⟨ha, hb⟩ => hsheets.elim ha hb
    unfold restoreFromExcel
    dsimp only
    rw [if_neg h1, if_neg hdata]

/-- Claim C7 counterexample: a Sales row whose id does not parse AND whose
date is not parseable is dropped with 'Invalid id' only — no emitted
message mentions 'Invalid date', contradicting the claim's universal
statement about Sales rows with unparseable dates. -/
theorem saleRow_badId_badDate_counterexample :
    isValidDateStr (fun d => d == "2024-01-05") (cellOrEmpty badSaleRow.date) = false ∧
    validateSaleRow (fun d => d == "2024-01-05") badSaleRow 0 =
      (none, ["Sales row 1: Invalid id"]) ∧
    strIncludes "Sales row 1: Invalid id" "Invalid date" = false := by decide

theorem rowValidation_messages_witness :
    (idCellInvalid badBookRow.id = true) ∧
    (∃ msg, validateBookRow badBookRow 0 = (none, [msg]) ∧
      strIncludes msg (toString (0 + 1)) = true ∧
      strIncludes msg "Invalid id" = true) ∧
    (∃ msg, validateSaleRow (fun d => d == "2024-01-05") badDateSaleRow 1 = (none, [msg]) ∧
      strIncludes msg (toString (1 + 1)) = true ∧
      strIncludes msg "Invalid date" = true) ∧
    (∃ msg, validateExpenseRow (fun d => d == "2024-01-05") badAmountExpenseRow 2 =
        (none, [msg]) ∧
      strIncludes msg (toString (2 + 1)) = true ∧
      strIncludes msg "Invalid amount" = true) ∧
    ((restoreFromExcel (fun d => d == "2024-01-05") wbMixed emptyStore .ok).1.success = true) := by
  have h := rowValidation_messages
  refine ⟨by decide, h.1 badBookRow 0 (by decide), ?_, ?_, ?_⟩
  · exact h.2.1 (fun d => d == "2024-01-05") badDateSaleRow 1 (by decide) (by decide)
  · exact h.2.2.1 (fun d => d == "2024-01-05") badAmountExpenseRow 2 (by decide)
      (Or.inr (by decide))
  · exact h.2.2.2 (fun d => d == "2024-01-05") wbMixed emptyStore (by decide) (by decide)
